import Mathlib

/-!
Verification of the hybrid cultural-provenance classification pipeline.

The pipeline has two stages:
* a rule cascade (`rule_based_classifier` in `run_RBC_validation.py`) that
  resolves an entity's category from its relationship lists via three
  reference tables consulted in fixed priority order, and
* a fallback merge (`apply_ml_fallback` in `apply_fallback_validation.py`
  and `apply_fallback_test.py`) that joins the rule predictions with entity
  text and invokes a learned text classifier on the rows the rules could
  not resolve.

Strings are modelled as Lean `String`s; pandas `NaN` cells are modelled as
`Option` values (`none` = missing/NaN). The learned fallback model is an
opaque function from text to label, as the spec treats it.
-/

/-- Provenance tag written by the rule cascade on a successful table hit.
The spec calls this tag `RULE`; the code writes the literal `'QID'`. -/
def RULE_TAG : String := "QID"

/-- Provenance tag written by the rule cascade when no table matches.
The spec calls this tag `UNRESOLVED`; the code writes `'Agnostic'`. -/
def UNRESOLVED_TAG : String := "Agnostic"

/-- Provenance tag written by the fallback merge on an overwritten row.
The spec calls this tag `FALLBACK`; the code writes `'ML'`. -/
def FALLBACK_TAG : String := "ML"

/-- A reference table: the dict produced by
`pd.read_csv(path).set_index('qid')['label'].to_dict()` in
`load_golden_rules`. Keys are the CSV's `qid` strings *verbatim* — the
loader performs no case normalization. Modelled as an association list;
per the table invariant each identifier occurs at most once. -/
abbrev Table := List (String × String)

/-- Model of `load_golden_rules` for a single table: `set_index.to_dict`
keeps the CSV's key strings unchanged (no lowercasing on load). -/
def load_golden_rules (csv : List (String × String)) : Table := csv

/-- Python `str.lower()` (ASCII model), applied character by character. -/
def pyLower (s : String) : String := ⟨s.data.map Char.toLower⟩

/-- One step of the cascade's inner loop body:
`label = table.get(qid.lower())` followed by the truthiness test
`if label:` — a missing key and an empty-string label both fail the test. -/
def truthyLookup (t : Table) (qid : String) : Option String :=
  match t.lookup (pyLower qid) with
  | some l => if l = "" then none else some l
  | none => none

/-- The cascade's per-list loop: return the first identifier's label for
which `truthyLookup` succeeds, scanning the list in order. -/
def findRule (qids : List String) (t : Table) : Option String :=
  match qids with
  | [] => none
  | q :: qs =>
    match truthyLookup t q with
    | some l => some l
    | none => findRule qs t

/-- One entity's consulted relationship lists plus its identifier and the
optional ground-truth label (validation runs). The auxiliary list fields
(`country_of_origin`, `country`, `located_in`) are carried by the frame but
never consulted by the cascade, so they are omitted from the model. -/
structure Entity where
  qid : String
  label : Option String
  heritage_status : List String
  part_of_culture : List String
  instance_of : List String
deriving Repr, DecidableEq

/-- `rule_based_classifier` from `run_RBC_validation.py`: look up
`heritage_status` in the heritage table, then `part_of_culture` in the
culture table, then `instance_of` in the instance table; first truthy hit
wins with source `'QID'`; otherwise `('Cultural Agnostic', 'Agnostic')`. -/
def rule_based_classifier (e : Entity) (instance_map culture_map heritage_map : Table) :
    String × String :=
  match findRule e.heritage_status heritage_map with
  | some l => (l, RULE_TAG)
  | none =>
    match findRule e.part_of_culture culture_map with
    | some l => (l, RULE_TAG)
    | none =>
      match findRule e.instance_of instance_map with
      | some l => (l, RULE_TAG)
      | none => ("Cultural Agnostic", UNRESOLVED_TAG)

/-- Character-level model of Python `str.title()` on ASCII text: an
alphabetic character is uppercased when the previous character was not
alphabetic and lowercased otherwise; other characters pass through and
reset the word boundary. -/
def titleGo : Bool → List Char → List Char
  | _, [] => []
  | prevAlpha, c :: cs =>
    if c.isAlpha then
      (if prevAlpha then c.toLower else c.toUpper) :: titleGo true cs
    else
      c :: titleGo false cs

/-- Python `str.title()` (ASCII model), used by the Batch Rule Runner
(`df['prediction'].str.title()`) and by the fallback merge on the model's
outputs. -/
def pyTitle (s : String) : String := ⟨titleGo false s.data⟩

/-- Python `str.strip()` (ASCII-whitespace model). -/
def pyStrip (s : String) : String :=
  ⟨((s.data.dropWhile Char.isWhitespace).reverse.dropWhile Char.isWhitespace).reverse⟩

/-- A row of the rule-stage prediction table (`validation_rules.csv` /
`test_rules.csv`): identifier, optional ground-truth label, prediction and
provenance tag. `Option` models pandas NaN cells. -/
structure PredRow where
  qid : String
  label : Option String
  prediction : Option String
  source : Option String
deriving Repr, DecidableEq

/-- A row of the raw text table as produced by `load_raw_text`: identifier
with optional `name` and `description` text. -/
structure RawText where
  qid : String
  name : Option String
  description : Option String
deriving Repr, DecidableEq

/-- The joined text column:
`(df['name'].fillna('') + ' ' + df['description'].fillna('')).str.strip()`. -/
def joinText (name description : Option String) : String :=
  pyStrip ((name.getD "") ++ " " ++ (description.getD ""))

/-- A row of the merged frame handed to the fallback step: the prediction
columns plus the joined `text` column. -/
structure FRow where
  qid : String
  label : Option String
  prediction : Option String
  source : Option String
  text : String
deriving Repr, DecidableEq

/-- One left row's block in the pandas left merge of
`merge_predictions_with_text` on `qid`: every matching right row produces
one output row; a left row with no match is carried through once with NaN
text columns. The joined `text` column is built immediately after the
merge. -/
def mergeBlock (raw : List RawText) (p : PredRow) : List FRow :=
  match raw.filter (fun r => r.qid == p.qid) with
  | [] => [⟨p.qid, p.label, p.prediction, p.source, joinText none none⟩]
  | ms => ms.map (fun m => ⟨p.qid, p.label, p.prediction, p.source, joinText m.name m.description⟩)

/-- The left merge itself: each prediction row contributes its block of
joined rows, in input order. -/
def merge_predictions_with_text (preds : List PredRow) (raw : List RawText) : List FRow :=
  preds.flatMap (mergeBlock raw)

/-- The fallback eligibility mask of `apply_ml_fallback`:
`df['prediction'].fillna('').str.lower() == 'cultural agnostic'` and
`df['text'].str.len().gt(0)`. -/
def eligible (r : FRow) : Bool :=
  (pyLower (r.prediction.getD "") == "cultural agnostic") && (r.text.length != 0)

/-- The per-row effect of `apply_ml_fallback` with an opaque model
`text -> label`: an eligible row's prediction is overwritten with the
title-cased model output and its source set to `'ML'`; afterwards a
missing source is filled with `'QID'` (`df['source'].fillna('QID')`). -/
def applyRow (model : String → String) (r : FRow) : FRow :=
  let r' :=
    if eligible r then
      { r with prediction := some (pyTitle (model r.text)), source := some FALLBACK_TAG }
    else r
  { r' with source := some (r'.source.getD RULE_TAG) }

/-- `apply_ml_fallback` over the whole frame (all of its column operations
are elementwise, so the frame transformation is a map over rows; the
`if mask.any()` guard is the identity when no row is eligible). -/
def apply_ml_fallback (model : String → String) (rows : List FRow) : List FRow :=
  rows.map (applyRow model)

/-- Per-row effect of the fallback step with a *fallible* model: an
exception raised by `model.predict` on an eligible row's text propagates. -/
def applyRowE (model : String → Except String String) (r : FRow) : Except String FRow :=
  if eligible r then
    (model r.text).map (fun p => { r with prediction := some (pyTitle p), source := some FALLBACK_TAG })
  else
    Except.ok { r with source := some (r.source.getD RULE_TAG) }

/-- `apply_ml_fallback` with a fallible model: if the model raises on any
eligible row the whole step raises, mirroring the uncaught exception from
the single `model.predict` batch call. -/
def apply_ml_fallbackE (model : String → Except String String) :
    List FRow → Except String (List FRow)
  | [] => Except.ok []
  | r :: rs =>
    match applyRowE model r with
    | Except.error e => Except.error e
    | Except.ok r' =>
      match apply_ml_fallbackE model rs with
      | Except.error e => Except.error e
      | Except.ok rs' => Except.ok (r' :: rs')

/-- A row of the final hybrid output table:
`df[['qid', 'label', 'prediction', 'source']]` (the test variant drops the
`label` passthrough column but is otherwise identical). -/
structure OutRow where
  qid : String
  label : Option String
  prediction : Option String
  source : Option String
deriving Repr, DecidableEq

/-- Column selection for the Result Writer. -/
def projectRow (r : FRow) : OutRow := ⟨r.qid, r.label, r.prediction, r.source⟩

/-- One row of the Batch Rule Runner's output: `rule_based_classifier`
applied to the entity, with the prediction title-cased afterwards
(`df['prediction'].str.title()`; the source column is not re-cased). -/
def classifyRow (e : Entity) (im cm hm : Table) : PredRow :=
  let pr := rule_based_classifier e im cm hm
  ⟨e.qid, e.label, some (pyTitle pr.1), some pr.2⟩

/-- The Batch Rule Runner: one prediction row per entity, in input order
(`df.progress_apply(..., axis=1)` keeps the frame's row order). -/
def ruleStage (ents : List Entity) (im cm hm : Table) : List PredRow :=
  ents.map (fun e => classifyRow e im cm hm)

/-- The `main` of the fallback scripts after loading, with a fallible
model: merge, fallback, column selection. The returned table models the
file written by `to_csv`; an `Except.error` run writes nothing. -/
def fallbackStageE (model : String → Except String String) (preds : List PredRow)
    (raw : List RawText) : Except String (List OutRow) :=
  (apply_ml_fallbackE model (merge_predictions_with_text preds raw)).map (List.map projectRow)

/-- The full hybrid pipeline on parsed entities with a total model: rule
cascade, title-casing, merge with text, fallback overwrite, projection. -/
def hybridPipeline (model : String → String) (ents : List Entity) (im cm hm : Table)
    (raw : List RawText) : List OutRow :=
  (apply_ml_fallback model (merge_predictions_with_text (ruleStage ents im cm hm) raw)).map projectRow

/-- A raw CSV cell of a relationship-kind column: either a non-string
value (pandas NaN from an empty cell, the `isinstance(x, str)` check
fails) or the cell's string contents. -/
inductive Cell
  | missing
  | str (s : String)
deriving Repr, DecidableEq

/-- Drop leading ASCII spaces. -/
def skipSpaces : List Char → List Char
  | [] => []
  | c :: cs => if c = ' ' then skipSpaces cs else c :: cs

/-- A Python string-literal quote character (single or double). -/
def isQuote (c : Char) : Bool := c = Char.ofNat 39 || c = '"'

/-- Read a quoted string literal's body up to the closing quote `q`. -/
def takeStrBody (q : Char) : List Char → Option (String × List Char)
  | [] => none
  | c :: cs =>
    if c = q then some ("", cs)
    else
      match takeStrBody q cs with
      | some (s, rest) => some (⟨c :: s.data⟩, rest)
      | none => none

/-- Read the comma-separated string literals of a list literal after the
opening `[`, returning the items and the remainder after the closing `]`.
`fuel` bounds the recursion by the input length. -/
def takeItems : Nat → List Char → Option (List String × List Char)
  | 0, _ => none
  | Nat.succ fuel, cs =>
    match skipSpaces cs with
    | [] => none
    | c :: rest =>
      if c = ']' then some ([], rest)
      else if isQuote c then
        match takeStrBody c rest with
        | none => none
        | some (s, rest2) =>
          match skipSpaces rest2 with
          | c2 :: rest3 =>
            if c2 = ',' then
              match takeItems fuel rest3 with
              | some (ss, r) => some (s :: ss, r)
              | none => none
            else if c2 = ']' then some ([s], rest3)
            else none
          | [] => none
      else none

/-- `ast.literal_eval` restricted to the domain of relationship cells: a
literal list of quoted identifier strings, e.g. `['Q5', 'Q17']`. Any
string that is not such a literal — in particular a bare word that is not
a Python literal at all — raises (`Except.error`), exactly as
`ast.literal_eval` raises `ValueError` on it. -/
def literalEvalList (s : String) : Except String (List String) :=
  match skipSpaces s.data with
  | c :: rest =>
    if c = '[' then
      match takeItems (s.length + 1) rest with
      | some (items, rest2) =>
        if (skipSpaces rest2).isEmpty then Except.ok items
        else Except.error "malformed node or string"
      | none => Except.error "malformed node or string"
    else Except.error "malformed node or string"
  | [] => Except.error "malformed node or string"

/-- The list-field coercion of `run_RBC_validation.main`:
`ast.literal_eval(x) if isinstance(x, str) else []`. A non-string cell
becomes the empty list; a string cell is parsed, and a parse failure
propagates out of `df[field].apply`, aborting the run. -/
def coerceCell : Cell → Except String (List String)
  | Cell.missing => Except.ok []
  | Cell.str s => literalEvalList s

/-- One raw CSV row of the entity dataset, before list-field coercion.
The auxiliary list fields (`country_of_origin`, `country`, `located_in`)
are coerced by the same loop but never consulted, so they are omitted. -/
structure RawEntity where
  qid : String
  label : Option String
  heritage_status : Cell
  part_of_culture : Cell
  instance_of : Cell
deriving Repr, DecidableEq

/-- Coerce one raw row's relationship cells into an `Entity`. -/
def coerceEntity (r : RawEntity) : Except String Entity := do
  let h ← coerceCell r.heritage_status
  let c ← coerceCell r.part_of_culture
  let i ← coerceCell r.instance_of
  Except.ok ⟨r.qid, r.label, h, c, i⟩

/-- Row-by-row list-field coercion (`df[field].apply(...)`): the first
raised exception propagates. -/
def coerceRows : List RawEntity → Except String (List Entity)
  | [] => Except.ok []
  | r :: rs =>
    match coerceEntity r with
    | Except.error e => Except.error e
    | Except.ok ent =>
      match coerceRows rs with
      | Except.error e => Except.error e
      | Except.ok ents => Except.ok (ent :: ents)

/-- The rule-stage `main` after loading: coerce every row's list fields
(any malformed string cell raises and aborts the run before any output is
written), then run the Batch Rule Runner. -/
def run_rules (rows : List RawEntity) (im cm hm : Table) : Except String (List PredRow) :=
  match coerceRows rows with
  | Except.error e => Except.error e
  | Except.ok ents => Except.ok (ruleStage ents im cm hm)

example : literalEvalList "['Q5', 'Q17']" = Except.ok ["Q5", "Q17"] := rfl
example : literalEvalList "[]" = Except.ok [] := rfl
example : (literalEvalList "not a list").isOk = false := by decide
example : pyTitle "cultural agnostic" = "Cultural Agnostic" := by decide
example : pyTitle "Cultural Agnostic" = "Cultural Agnostic" := by decide
example : truthyLookup [("q1", "Tangible")] "Q1" = some "Tangible" := by decide
example : truthyLookup [("Q1", "Tangible")] "Q1" = none := by decide
example : truthyLookup [("q1", "")] "q1" = none := by decide

/-! ### Helper lemmas -/

theorem truthyLookup_ne_empty {t : Table} {q l : String} (h : truthyLookup t q = some l) :
    l ≠ "" := by
  unfold truthyLookup at h
  cases hl : t.lookup (pyLower q) with
  | none => rw [hl] at h; exact absurd h (by simp)
  | some l' =>
    rw [hl] at h
    by_cases h' : l' = ""
    · simp [h'] at h
    · simp only [if_neg h', Option.some.injEq] at h
      exact h ▸ h'

theorem findRule_ne_empty {qs : List String} {t : Table} {l : String}
    (h : findRule qs t = some l) : l ≠ "" := by
  induction qs with
  | nil => exact absurd h (by simp [findRule])
  | cons q qs ih =>
    unfold findRule at h
    cases hq : truthyLookup t q with
    | none => rw [hq] at h; exact ih h
    | some l' =>
      rw [hq] at h
      simp only [Option.some.injEq] at h
      exact h ▸ truthyLookup_ne_empty hq

theorem findRule_eq_none {qs : List String} {t : Table}
    (h : ∀ q ∈ qs, truthyLookup t q = none) : findRule qs t = none := by
  induction qs with
  | nil => rfl
  | cons q qs ih =>
    unfold findRule
    rw [h q (List.mem_cons_self q qs)]
    exact ih (fun x hx => h x (List.mem_cons_of_mem q hx))

theorem findRule_first_match {t : Table} :
    ∀ (qs : List String) (i : Nat) (q l : String),
      qs[i]? = some q → truthyLookup t q = some l →
      (∀ j, j < i → (qs[j]?.bind (truthyLookup t)) = none) →
      findRule qs t = some l := by
  intro qs
  induction qs with
  | nil => intro i q l hq _ _; simp at hq
  | cons a as ih =>
    intro i q l hq hl hfirst
    cases i with
    | zero =>
      simp only [List.getElem?_cons_zero, Option.some.injEq] at hq
      unfold findRule
      rw [hq, hl]
    | succ i' =>
      have ha : truthyLookup t a = none := by
        have := hfirst 0 (Nat.succ_pos i')
        simpa using this
      simp only [List.getElem?_cons_succ] at hq
      unfold findRule
      rw [ha]
      exact ih i' q l hq hl (fun j hj => by
        have := hfirst (j + 1) (Nat.succ_lt_succ hj)
        simpa using this)

theorem titleGo_ne_nil {b : Bool} {cs : List Char} (h : cs ≠ []) : titleGo b cs ≠ [] := by
  cases cs with
  | nil => exact absurd rfl h
  | cons c cs =>
    unfold titleGo
    by_cases hc : c.isAlpha <;> simp [hc]

theorem pyTitle_ne_empty {s : String} (h : s ≠ "") : pyTitle s ≠ "" := by
  intro hcon
  apply h
  have hdata : titleGo false s.data = [] := congrArg String.data hcon
  cases hs : s.data with
  | nil => cases s; simp_all
  | cons c cs => rw [hs] at hdata; exact absurd hdata (titleGo_ne_nil (by simp))

theorem applyRow_qid (model : String → String) (r : FRow) :
    (applyRow model r).qid = r.qid := by
  cases h : eligible r <;> simp [applyRow, h]

theorem applyRow_source_isSome (model : String → String) (r : FRow) :
    ∃ s, (applyRow model r).source = some s := by
  cases h : eligible r <;> simp [applyRow, h]

theorem merge_mem {preds : List PredRow} {raw : List RawText} {fr : FRow}
    (h : fr ∈ merge_predictions_with_text preds raw) :
    ∃ p ∈ preds, fr.qid = p.qid ∧ fr.label = p.label ∧
      fr.prediction = p.prediction ∧ fr.source = p.source := by
  unfold merge_predictions_with_text at h
  rw [List.mem_flatMap] at h
  obtain ⟨p, hp, hfr⟩ := h
  refine ⟨p, hp, ?_⟩
  unfold mergeBlock at hfr
  cases hf : raw.filter (fun r => r.qid == p.qid) with
  | nil => rw [hf] at hfr; simp at hfr; subst hfr; exact ⟨rfl, rfl, rfl, rfl⟩
  | cons m ms =>
    rw [hf] at hfr
    rw [List.mem_map] at hfr
    obtain ⟨m', _, hfr⟩ := hfr
    subst hfr
    exact ⟨rfl, rfl, rfl, rfl⟩

theorem filter_qid_len_le_one {raw : List RawText} (k : String)
    (hraw : (raw.map RawText.qid).Nodup) :
    (raw.filter (fun r => r.qid == k)).length ≤ 1 := by
  induction raw with
  | nil => simp
  | cons r rs ih =>
    rw [List.map_cons, List.nodup_cons] at hraw
    obtain ⟨hnot, hnd⟩ := hraw
    by_cases hr : r.qid == k
    · have hk : r.qid = k := by simpa using hr
      have hnil : rs.filter (fun r' => r'.qid == k) = [] := by
        rw [List.filter_eq_nil_iff]
        intro r' hr' hcon
        apply hnot
        rw [List.mem_map]
        exact ⟨r', hr', by rw [hk]; simpa using hcon⟩
      simp [List.filter_cons, hr, hnil]
    · simp only [List.filter_cons, hr]
      exact ih hnd

theorem merge_block_singleton (p : PredRow) {raw : List RawText}
    (hraw : (raw.map RawText.qid).Nodup) :
    ∃ fr : FRow, mergeBlock raw p = [fr] ∧ fr.qid = p.qid := by
  unfold mergeBlock
  cases hf : raw.filter (fun r => r.qid == p.qid) with
  | nil => exact ⟨_, rfl, rfl⟩
  | cons m ms =>
    have hlen := filter_qid_len_le_one p.qid hraw
    rw [hf] at hlen
    cases ms with
    | nil => exact ⟨_, rfl, rfl⟩
    | cons m2 ms2 => simp at hlen

theorem merge_nodup_spec {preds : List PredRow} {raw : List RawText}
    (hraw : (raw.map RawText.qid).Nodup) :
    (merge_predictions_with_text preds raw).length = preds.length ∧
    ∀ i : Nat, ((merge_predictions_with_text preds raw)[i]?).map FRow.qid =
      (preds[i]?).map PredRow.qid := by
  induction preds with
  | nil => exact ⟨rfl, fun i => by simp [merge_predictions_with_text]⟩
  | cons p ps ih =>
    obtain ⟨fr, hblock, hqid⟩ := merge_block_singleton p hraw
    have hcons : merge_predictions_with_text (p :: ps) raw =
        fr :: merge_predictions_with_text ps raw := by
      unfold merge_predictions_with_text
      rw [List.flatMap_cons, hblock]
      rfl
    obtain ⟨ihlen, ihget⟩ := ih
    constructor
    · rw [hcons, List.length_cons, ihlen, List.length_cons]
    · intro i
      cases i with
      | zero => rw [hcons]; simp [hqid]
      | succ i' => rw [hcons]; simpa using ihget i'

theorem fallbackE_error {model : String → Except String String} :
    ∀ {rows : List FRow} {r : FRow} {e : String},
      r ∈ rows → applyRowE model r = Except.error e →
      ∃ e', apply_ml_fallbackE model rows = Except.error e' := by
  intro rows
  induction rows with
  | nil => intro r e hr _; simp at hr
  | cons a as ih =>
    intro r e hr herr
    rw [List.mem_cons] at hr
    unfold apply_ml_fallbackE
    cases ha : applyRowE model a with
    | error e' => exact ⟨e', rfl⟩
    | ok a' =>
      have hras : r ∈ as := by
        cases hr with
        | inl h => rw [h, ha] at herr; exact absurd herr (by simp)
        | inr h => exact h
      obtain ⟨e', he'⟩ := ih hras herr
      rw [he']
      exact ⟨e', rfl⟩

/-! ### Claim theorems -/

/-- C1: the cascade consults `heritage_status`, then `part_of_culture`,
then `instance_of`. (a) If the heritage list's first matching identifier
(in list order) carries label `l` in the heritage table, the classifier
returns `(l, RULE)` regardless of the culture and instance lists.
(b) If the heritage list has no match and the culture list's first
matching identifier carries label `l`, the classifier returns `(l, RULE)`
even when the instance table also matches some identifier. -/
theorem cascade_priority_order (im cm hm : Table) :
    (∀ (e : Entity) (i : Nat) (q l : String),
      e.heritage_status[i]? = some q →
      truthyLookup hm q = some l →
      (∀ j, j < i → (e.heritage_status[j]?.bind (truthyLookup hm)) = none) →
      rule_based_classifier e im cm hm = (l, RULE_TAG)) ∧
    (∀ (e : Entity) (i : Nat) (q l : String),
      (∀ q' ∈ e.heritage_status, truthyLookup hm q' = none) →
      e.part_of_culture[i]? = some q →
      truthyLookup cm q = some l →
      (∀ j, j < i → (e.part_of_culture[j]?.bind (truthyLookup cm)) = none) →
      (∃ q' ∈ e.instance_of, (truthyLookup im q').isSome) →
      rule_based_classifier e im cm hm = (l, RULE_TAG)) := by
  constructor
  · intro e i q l hq hl hfirst
    unfold rule_based_classifier
    rw [findRule_first_match e.heritage_status i q l hq hl hfirst]
  · intro e i q l hh hq hl hfirst _hinst
    unfold rule_based_classifier
    rw [findRule_eq_none hh,
      findRule_first_match e.part_of_culture i q l hq hl hfirst]

/-- C1 witness: heritage `q1 ↦ Tangible` beats culture `q2 ↦ Oral
Tradition` (first conjunct, first match at index 1 after the unmatched
`q0`); with an empty heritage list, culture beats instance (second
conjunct). -/
theorem cascade_priority_order_witness :
    rule_based_classifier ⟨"Q1", none, ["q0", "q1"], ["q2"], ["q3"]⟩
      [("q3", "Artifact")] [("q2", "Oral Tradition")] [("q1", "Tangible")] =
      ("Tangible", RULE_TAG) ∧
    rule_based_classifier ⟨"Q2", none, [], ["q2"], ["q3"]⟩
      [("q3", "Artifact")] [("q2", "Oral Tradition")] [("q1", "Tangible")] =
      ("Oral Tradition", RULE_TAG) :=
  ⟨(cascade_priority_order [("q3", "Artifact")] [("q2", "Oral Tradition")] [("q1", "Tangible")]).1
      ⟨"Q1", none, ["q0", "q1"], ["q2"], ["q3"]⟩ 1 "q1" "Tangible"
      (by decide) (by decide) (by decide),
    (cascade_priority_order [("q3", "Artifact")] [("q2", "Oral Tradition")] [("q1", "Tangible")]).2
      ⟨"Q2", none, [], ["q2"], ["q3"]⟩ 0 "q2" "Oral Tradition"
      (by decide) (by decide) (by decide) (by decide) (by decide)⟩

/-- C6: when none of the three consulted relationship lists yields a
table match, the classifier returns `("Cultural Agnostic", UNRESOLVED)`. -/
theorem cascade_unmatched_agnostic (e : Entity) (im cm hm : Table)
    (hh : ∀ q ∈ e.heritage_status, truthyLookup hm q = none)
    (hc : ∀ q ∈ e.part_of_culture, truthyLookup cm q = none)
    (hi : ∀ q ∈ e.instance_of, truthyLookup im q = none) :
    rule_based_classifier e im cm hm = ("Cultural Agnostic", UNRESOLVED_TAG) := by
  unfold rule_based_classifier
  rw [findRule_eq_none hh, findRule_eq_none hc, findRule_eq_none hi]

/-- C6 witness: an entity with all three relationship lists empty. -/
theorem cascade_unmatched_agnostic_witness :
    rule_based_classifier ⟨"Q9", none, [], [], []⟩ [("q3", "Artifact")] [] [] =
      ("Cultural Agnostic", UNRESOLVED_TAG) :=
  cascade_unmatched_agnostic ⟨"Q9", none, [], [], []⟩ [("q3", "Artifact")] [] []
    (by decide) (by decide) (by decide)

/-- C10: an identifier mapped to the empty-string label fails the `if
label:` truthiness test, so (a) prepending it to the heritage list never
changes the classification — the cascade continues past it to later
identifiers and later lists — and (b) the empty label is never returned
as a prediction. -/
theorem empty_label_skipped (im cm hm : Table) (q : String)
    (h : hm.lookup (pyLower q) = some "") :
    (∀ e : Entity,
      rule_based_classifier
        ⟨e.qid, e.label, q :: e.heritage_status, e.part_of_culture, e.instance_of⟩ im cm hm =
      rule_based_classifier e im cm hm) ∧
    (∀ e : Entity, (rule_based_classifier e im cm hm).1 ≠ "") := by
  constructor
  · intro e
    have hq : truthyLookup hm q = none := by unfold truthyLookup; rw [h]; simp
    have hfr : findRule (q :: e.heritage_status) hm = findRule e.heritage_status hm := by
      conv_lhs => unfold findRule
      rw [hq]
    unfold rule_based_classifier
    simp only
    rw [hfr]
  · intro e
    unfold rule_based_classifier
    cases h1 : findRule e.heritage_status hm with
    | some l => simpa using findRule_ne_empty h1
    | none =>
      cases h2 : findRule e.part_of_culture cm with
      | some l => simpa using findRule_ne_empty h2
      | none =>
        cases h3 : findRule e.instance_of im with
        | some l => simpa using findRule_ne_empty h3
        | none => simp

/-- C10 witness: heritage table `q9 ↦ ""`; the entry is skipped and the
cascade falls through to the culture table. -/
theorem empty_label_skipped_witness :
    rule_based_classifier ⟨"Q1", none, ["q9"], ["q2"], []⟩
      [] [("q2", "Oral Tradition")] [("q9", "")] =
    rule_based_classifier ⟨"Q1", none, [], ["q2"], []⟩
      [] [("q2", "Oral Tradition")] [("q9", "")] ∧
    (rule_based_classifier ⟨"Q1", none, ["q9"], ["q2"], []⟩
      [] [("q2", "Oral Tradition")] [("q9", "")]).1 ≠ "" :=
  ⟨(empty_label_skipped [] [("q2", "Oral Tradition")] [("q9", "")] "q9" (by decide)).1
      ⟨"Q1", none, [], ["q2"], []⟩,
    (empty_label_skipped [] [("q2", "Oral Tradition")] [("q9", "")] "q9" (by decide)).2
      ⟨"Q1", none, ["q9"], ["q2"], []⟩⟩

/-- C4 counterexample: `load_golden_rules` keeps table keys verbatim, so a
heritage table loaded with the uppercase key `"Q1"` is never matched —
not even by the identically cased identifier `"Q1"` — because the cascade
lowercases only the queried identifier. The claimed lowercase
normalization of keys on load does not happen. -/
theorem table_key_casing_cex :
    rule_based_classifier ⟨"Q1", none, ["Q1"], [], []⟩
      [] [] (load_golden_rules [("Q1", "Tangible")]) =
      ("Cultural Agnostic", UNRESOLVED_TAG) := by decide

/-- C4 amended: lookups lowercase the entity-side identifier only, while
table keys are loaded verbatim; the cascade finds a (non-empty) label
exactly when the loaded table maps the identifier's *lowercase form* to
that label. -/
theorem table_lookup_lowercases_query (csv : List (String × String)) (q l : String)
    (hl : l ≠ "") :
    truthyLookup (load_golden_rules csv) q = some l ↔
      (load_golden_rules csv).lookup (pyLower q) = some l := by
  unfold truthyLookup
  cases hc : (load_golden_rules csv).lookup (pyLower q) with
  | none => simp
  | some l' =>
    by_cases h' : l' = ""
    · subst h'
      simp only [if_pos rfl]
      constructor
      · intro hcon; exact absurd hcon (by simp)
      · intro hcon
        simp only [Option.some.injEq] at hcon
        exact absurd hcon.symm hl
    · simp [if_neg h']

/-- C4 amended witness: the table stores the lowercase key `"q1"`, and the
query `"Q1"` finds it. -/
theorem table_lookup_lowercases_query_witness :
    truthyLookup (load_golden_rules [("q1", "Tangible")]) "Q1" = some "Tangible" :=
  (table_lookup_lowercases_query [("q1", "Tangible")] "Q1" "Tangible" (by decide)).mpr
    (by decide)

/-- C3 counterexample: a merged row whose `source` is null after the
overwrite step is defaulted by `df['source'].fillna('QID')` to `'QID'` —
the very tag the cascade writes for rule hits (`RULE_TAG`), not a
catch-all value distinct from the RULE/FALLBACK/UNRESOLVED tags. -/
theorem missing_source_default_cex :
    (apply_ml_fallback (fun _ => "Intangible")
        [⟨"Q1", none, some "Tangible", none, "x"⟩]).map FRow.source = [some RULE_TAG] := by
  decide

/-- C3 amended: a row whose `source` is still null after the fallback
overwrite (and which is not fallback-eligible) has it defaulted to
`'QID'`, the same value as the RULE tag rather than a distinct catch-all
sentinel; the only logged count is of null *predictions*, not of these
source repairs. -/
theorem missing_source_default (model : String → String) (rows : List FRow) (i : Nat)
    (r : FRow) (h : rows[i]? = some r) (hs : r.source = none) (he : eligible r = false) :
    ((apply_ml_fallback model rows)[i]?).map FRow.source = some (some RULE_TAG) := by
  unfold apply_ml_fallback
  rw [List.getElem?_map, h]
  simp [applyRow, he, hs]

/-- C3 amended witness: a concrete null-source row gets `'QID'`. -/
theorem missing_source_default_witness :
    ((apply_ml_fallback (fun _ => "Intangible")
        [⟨"Q1", none, some "Tangible", none, "x"⟩])[0]?).map FRow.source =
      some (some RULE_TAG) :=
  missing_source_default (fun _ => "Intangible")
    [⟨"Q1", none, some "Tangible", none, "x"⟩] 0
    ⟨"Q1", none, some "Tangible", none, "x"⟩ (by decide) (by decide) (by decide)

/-- C2: in the fallback merge, a row satisfying the eligibility mask
(prediction case-insensitively `"Cultural Agnostic"`, joined text
non-empty) has its prediction overwritten with the title-cased model
output for its text and its source set to `FALLBACK` (`'ML'`); any other
row with a present source tag is passed through completely unchanged — in
particular an agnostic row with empty text keeps
`Cultural Agnostic` / `UNRESOLVED`, and the model's output is never used
for it. -/
theorem fallback_overwrite_exact (model : String → String) (rows : List FRow) (i : Nat)
    (r : FRow) (h : rows[i]? = some r) :
    (eligible r = true →
      (apply_ml_fallback model rows)[i]? =
        some ⟨r.qid, r.label, some (pyTitle (model r.text)), some FALLBACK_TAG, r.text⟩) ∧
    (eligible r = false → ∀ s, r.source = some s →
      (apply_ml_fallback model rows)[i]? = some r) := by
  constructor
  · intro he
    unfold apply_ml_fallback
    rw [List.getElem?_map, h]
    cases r
    simp [applyRow, he]
  · intro he s hs
    unfold apply_ml_fallback
    rw [List.getElem?_map, h]
    cases r
    simp only at hs
    subst hs
    simp [applyRow, he]

/-- C2 witness: an eligible agnostic row is overwritten with the
title-cased model output and tagged `'ML'`; an agnostic row with empty
text is passed through as `Cultural Agnostic` / `'Agnostic'`. -/
theorem fallback_overwrite_exact_witness :
    (apply_ml_fallback (fun _ => "intangible")
        [⟨"Q1", none, some "Cultural Agnostic", some UNRESOLVED_TAG, "Diwali festival"⟩])[0]? =
      some ⟨"Q1", none, some "Intangible", some FALLBACK_TAG, "Diwali festival"⟩ ∧
    (apply_ml_fallback (fun _ => "intangible")
        [⟨"Q2", none, some "Cultural Agnostic", some UNRESOLVED_TAG, ""⟩])[0]? =
      some ⟨"Q2", none, some "Cultural Agnostic", some UNRESOLVED_TAG, ""⟩ :=
  ⟨((fallback_overwrite_exact (fun _ => "intangible")
      [⟨"Q1", none, some "Cultural Agnostic", some UNRESOLVED_TAG, "Diwali festival"⟩] 0
      ⟨"Q1", none, some "Cultural Agnostic", some UNRESOLVED_TAG, "Diwali festival"⟩
      (by decide)).1 (by decide)).trans (by decide),
    (fallback_overwrite_exact (fun _ => "intangible")
      [⟨"Q2", none, some "Cultural Agnostic", some UNRESOLVED_TAG, ""⟩] 0
      ⟨"Q2", none, some "Cultural Agnostic", some UNRESOLVED_TAG, ""⟩
      (by decide)).2 (by decide) UNRESOLVED_TAG (by decide)⟩

/-- C5 counterexample: a relationship-kind cell holding the string
`"not a list"` is not a Python literal; `ast.literal_eval` raises, the
exception propagates out of the list-field coercion, and the rule-stage
run aborts with no output — contradicting the claim that malformed cells
are repaired to empty lists and never abort the run. -/
theorem malformed_cell_aborts_cex :
    run_rules [⟨"Q1", none, Cell.str "not a list", Cell.str "[]", Cell.str "[]"⟩] [] [] [] =
      Except.error "malformed node or string" := rfl

/-- C5 amended: only a *non-string* cell (a pandas NaN from an empty CSV
field) is treated as an empty relationship list — such rows classify
non-fatally to `Cultural Agnostic`/`UNRESOLVED` — while a string cell
that cannot be parsed as a literal raises and aborts the whole run. -/
theorem missing_cells_treated_empty (rows : List RawEntity) (im cm hm : Table)
    (h : ∀ r ∈ rows, r.heritage_status = Cell.missing ∧ r.part_of_culture = Cell.missing ∧
      r.instance_of = Cell.missing) :
    run_rules rows im cm hm = Except.ok (rows.map (fun r =>
      (⟨r.qid, r.label, some "Cultural Agnostic", some UNRESOLVED_TAG⟩ : PredRow))) := by
  have hc : coerceRows rows =
      Except.ok (rows.map (fun r => (⟨r.qid, r.label, [], [], []⟩ : Entity))) := by
    induction rows with
    | nil => rfl
    | cons a as ih =>
      obtain ⟨h1, h2, h3⟩ := h a (List.mem_cons_self a as)
      have ha : coerceEntity a = Except.ok ⟨a.qid, a.label, [], [], []⟩ := by
        unfold coerceEntity; rw [h1, h2, h3]; rfl
      unfold coerceRows
      rw [ha, ih (fun r hr => h r (List.mem_cons_of_mem a hr))]
      rfl
  unfold run_rules
  rw [hc]
  show Except.ok
      (ruleStage (rows.map (fun r => (⟨r.qid, r.label, [], [], []⟩ : Entity))) im cm hm) = _
  unfold ruleStage
  rw [List.map_map]
  rfl

/-- C5 amended witness: a row with all relationship cells missing
classifies to `Cultural Agnostic`/`UNRESOLVED` and the run succeeds. -/
theorem missing_cells_treated_empty_witness :
    run_rules [⟨"Q1", some "tangible", Cell.missing, Cell.missing, Cell.missing⟩] [] [] [] =
      Except.ok [⟨"Q1", some "tangible", some "Cultural Agnostic", some UNRESOLVED_TAG⟩] :=
  missing_cells_treated_empty
    [⟨"Q1", some "tangible", Cell.missing, Cell.missing, Cell.missing⟩] [] [] [] (by decide)

/-- C7: if the fallback model raises on the text of any eligible merged
row, the whole fallback stage fails with an error and the hybrid output
table is never produced (`to_csv` runs only after `apply_ml_fallback`
returns). -/
theorem mem_of_getElem_opt {α : Type} {l : List α} {i : Nat} {a : α}
    (h : l[i]? = some a) : a ∈ l := by
  induction l generalizing i with
  | nil => simp at h
  | cons b bs ih =>
    cases i with
    | zero =>
      simp only [List.getElem?_cons_zero, Option.some.injEq] at h
      exact h ▸ List.mem_cons_self b bs
    | succ i' =>
      simp only [List.getElem?_cons_succ] at h
      exact List.mem_cons_of_mem b (ih h)

theorem fallback_error_fails_run (model : String → Except String String)
    (preds : List PredRow) (raw : List RawText) (i : Nat) (r : FRow) (msg : String)
    (h : (merge_predictions_with_text preds raw)[i]? = some r)
    (he : eligible r = true) (herr : model r.text = Except.error msg) :
    ∃ e, fallbackStageE model preds raw = Except.error e := by
  have hmem : r ∈ merge_predictions_with_text preds raw := mem_of_getElem_opt h
  have happ : applyRowE model r = Except.error msg := by
    unfold applyRowE
    rw [if_pos he, herr]
    rfl
  obtain ⟨e, hE⟩ := fallbackE_error hmem happ
  refine ⟨e, ?_⟩
  unfold fallbackStageE
  rw [hE]
  rfl

/-- C7 witness: a model that raises on its single eligible row makes the
whole fallback stage fail. -/
theorem fallback_error_fails_run_witness :
    ∃ e, fallbackStageE (fun _ => Except.error "predict failed")
      [⟨"Q1", none, some "Cultural Agnostic", some UNRESOLVED_TAG⟩]
      [⟨"Q1", some "Diwali", some "festival"⟩] = Except.error e :=
  fallback_error_fails_run (fun _ => Except.error "predict failed")
    [⟨"Q1", none, some "Cultural Agnostic", some UNRESOLVED_TAG⟩]
    [⟨"Q1", some "Diwali", some "festival"⟩] 0
    ⟨"Q1", none, some "Cultural Agnostic", some UNRESOLVED_TAG, "Diwali festival"⟩
    "predict failed" (by decide) (by decide) rfl

theorem classifier_fst_ne_empty (e : Entity) (im cm hm : Table) :
    (rule_based_classifier e im cm hm).1 ≠ "" := by
  unfold rule_based_classifier
  cases h1 : findRule e.heritage_status hm with
  | some l => simpa using findRule_ne_empty h1
  | none =>
    cases h2 : findRule e.part_of_culture cm with
    | some l => simpa using findRule_ne_empty h2
    | none =>
      cases h3 : findRule e.instance_of im with
      | some l => simpa using findRule_ne_empty h3
      | none => simp

/-- C8: on any entity dataset, after the full hybrid pipeline (rule
cascade, title-casing, text merge, fallback overwrite, source fill) every
output row's prediction is present and non-empty and every row carries a
provenance tag — each row holds exactly one `prediction` and one `source`
field by construction. Requires the fallback model to honour its contract
of returning a (non-empty) category label per text. -/
theorem pipeline_prediction_always_present (model : String → String) (ents : List Entity)
    (im cm hm : Table) (raw : List RawText) (hmodel : ∀ t, model t ≠ "") :
    ∀ row ∈ hybridPipeline model ents im cm hm raw,
      (∃ p, row.prediction = some p ∧ p ≠ "") ∧ (∃ s, row.source = some s) := by
  intro row hrow
  unfold hybridPipeline at hrow
  rw [List.mem_map] at hrow
  obtain ⟨fr, hfr, hrow⟩ := hrow
  unfold apply_ml_fallback at hfr
  rw [List.mem_map] at hfr
  obtain ⟨mr, hmr, hfr⟩ := hfr
  obtain ⟨p, hp, _hqid, _hlabel, hpred, _hsrc⟩ := merge_mem hmr
  have hps : ∃ l, p.prediction = some (pyTitle l) ∧ l ≠ "" := by
    unfold ruleStage at hp
    rw [List.mem_map] at hp
    obtain ⟨e, _he, hpe⟩ := hp
    subst hpe
    exact ⟨(rule_based_classifier e im cm hm).1, rfl, classifier_fst_ne_empty e im cm hm⟩
  subst hfr
  subst hrow
  constructor
  · by_cases hel : eligible mr
    · refine ⟨pyTitle (model mr.text), ?_, pyTitle_ne_empty (hmodel mr.text)⟩
      simp [projectRow, applyRow, hel]
    · obtain ⟨l, hl, hlne⟩ := hps
      refine ⟨pyTitle l, ?_, pyTitle_ne_empty hlne⟩
      rw [hl] at hpred
      simp [projectRow, applyRow, hel, hpred]
  · obtain ⟨s, hs⟩ := applyRow_source_isSome model mr
    exact ⟨s, by simp [projectRow, hs]⟩

/-- C8 witness: the pipeline on a single unresolvable entity with no text
row yields a present, non-empty prediction and a provenance tag. -/
theorem pipeline_prediction_always_present_witness :
    (∃ p, (⟨"Q1", none, some "Cultural Agnostic", some UNRESOLVED_TAG⟩ : OutRow).prediction =
        some p ∧ p ≠ "") ∧
    (∃ s, (⟨"Q1", none, some "Cultural Agnostic", some UNRESOLVED_TAG⟩ : OutRow).source = some s) :=
  pipeline_prediction_always_present (fun _ => "intangible") [⟨"Q1", none, [], [], []⟩]
    [] [] [] [] (fun _ => show "intangible" ≠ "" by decide)
    ⟨"Q1", none, some "Cultural Agnostic", some UNRESOLVED_TAG⟩ (by decide)

/-- C9: when the entity-text source has pairwise-distinct identifiers (the
dataset contract), the final hybrid table has exactly one row per input
entity, in input order — the left merge neither drops nor reorders nor
duplicates prediction rows, and each output row carries the entity's
identifier alongside its prediction, source and label passthrough. -/
theorem output_preserves_rows (model : String → String) (ents : List Entity)
    (im cm hm : Table) (raw : List RawText) (hraw : (raw.map RawText.qid).Nodup) :
    (hybridPipeline model ents im cm hm raw).length = ents.length ∧
    ∀ i : Nat, ((hybridPipeline model ents im cm hm raw)[i]?).map OutRow.qid =
      (ents[i]?).map Entity.qid := by
  obtain ⟨hml, hmg⟩ := @merge_nodup_spec (ruleStage ents im cm hm) raw hraw
  have h2 : ∀ i : Nat, ((ruleStage ents im cm hm)[i]?).map PredRow.qid =
      (ents[i]?).map Entity.qid := by
    intro i
    unfold ruleStage
    rw [List.getElem?_map]
    cases ents[i]? <;> simp [classifyRow]
  constructor
  · unfold hybridPipeline apply_ml_fallback
    rw [List.length_map, List.length_map, hml]
    unfold ruleStage
    rw [List.length_map]
  · intro i
    unfold hybridPipeline apply_ml_fallback
    rw [List.getElem?_map, List.getElem?_map]
    have h1 := hmg i
    cases hmi : (merge_predictions_with_text (ruleStage ents im cm hm) raw)[i]? with
    | none =>
      rw [hmi] at h1
      rw [← h2 i, ← h1]
      rfl
    | some fr =>
      rw [hmi] at h1
      rw [← h2 i, ← h1]
      simp [projectRow, applyRow_qid]

/-- C9 witness: one entity, one matching text row, distinct raw
identifiers: one output row, in order, carrying the entity id. -/
theorem output_preserves_rows_witness :
    (hybridPipeline (fun _ => "intangible") [⟨"Q1", none, [], [], []⟩] [] [] []
      [⟨"Q1", some "Diwali", some "festival"⟩]).length = 1 ∧
    ((hybridPipeline (fun _ => "intangible") [⟨"Q1", none, [], [], []⟩] [] [] []
      [⟨"Q1", some "Diwali", some "festival"⟩])[0]?).map OutRow.qid = some "Q1" :=
  ⟨(output_preserves_rows (fun _ => "intangible") [⟨"Q1", none, [], [], []⟩] [] [] []
      [⟨"Q1", some "Diwali", some "festival"⟩] (by decide)).1,
    ((output_preserves_rows (fun _ => "intangible") [⟨"Q1", none, [], [], []⟩] [] [] []
      [⟨"Q1", some "Diwali", some "festival"⟩] (by decide)).2 0).trans (by decide)⟩
